import Mathlib

/-! # ICULayoutEngine (icu4c/source/layout/unicode/loengine.h)

A shallow embedding of the `ICULayoutEngine` wrapper class and of the
`LayoutEngine` it forwards to, with the properties of the wrapper stated
and proved over it.

* 32-bit signed integers (`int32_t`, `UTextOffset`, `UScriptCode`) are
  `Int`; arithmetic the wrapper performs on them goes through `wrap32`.
* `float` is a type parameter `F`: the wrapper only forwards coordinates.
* A pointer that may be null is an `Option`; calling through a null
  pointer, or reading a static array past its end, yields `none`.
-/

namespace Loengine

/-! ## Machine integers -/

/-- Two's-complement reduction of an integer to the `int32_t` range. -/
def wrap32 (n : Int) : Int := (n + 2147483648) % 4294967296 - 2147483648

/-- Membership in the `int32_t` range. -/
abbrev isInt32 (n : Int) : Prop := -2147483648 ≤ n ∧ n < 2147483648

/-! ## Basic types -/

/-- A UTF-16 code unit (`UChar`, `LEUnicode`). -/
abbrev UChar := Nat

/-- A glyph identifier (`uint16_t`). -/
abbrev LEGlyphID := Nat

/-- Modelled from the spec: the error kinds of section 7. The header only
names the types `UErrorCode` and `LEErrorCode`; their enumerators are
declared in `unicode/utypes.h` and `layout/LETypes.h`. -/
inductive ShapeError
  | InvalidOffset
  | FontUnavailable
  | OutOfMemory
  | IndexOutOfRange
  | BufferTooSmall
  deriving DecidableEq, Repr

/-- The content of a `UErrorCode &success` cell; `none` is "no error". The
wrapper reinterprets the same cell as `LEErrorCode &`. -/
abbrev UErrorCode := Option ShapeError

/-- The characters of a `UnicodeString`. -/
abbrev UnicodeString := List UChar

/-- The method `UnicodeString::length()`. -/
def UnicodeString.length (str : UnicodeString) : Int := (List.length str : Nat)

/-- The method `UnicodeString::extract(start, length, dst)`: the code units of
`[start, start + length)`, both pinned to the string, as written to `dst`. -/
def UnicodeString.extract (str : UnicodeString) (start length : Int) : List UChar :=
  (str.drop start.toNat).take length.toNat

/-! ## The wrapped engine

`LayoutEngine` is declared in `layout/LayoutEngine.h`. The wrapper uses it
only through the member functions below, so the class is taken as a
parameter: a record of operations over an engine state `σ`. -/

/-- The member functions of `LayoutEngine` that `ICULayoutEngine` calls. An
output array is the list of entries the engine writes to it. -/
structure LayoutEngine (σ F : Type) where
  /-- The method `void reset()`. -/
  reset : σ → σ
  /-- The method `layoutChars(chars, offset, count, max, rightToLeft, x, y, success)`. -/
  layoutChars : List UChar → Int → Int → Int → Bool → F → F → UErrorCode → σ →
    Int × UErrorCode × σ
  /-- The method `getGlyphCount()`. -/
  getGlyphCount : σ → Int
  /-- The method `getGlyphs(glyphs, success)`. -/
  getGlyphs : UErrorCode → σ → List LEGlyphID × UErrorCode
  /-- The method `getCharIndices(charIndices, success)`. -/
  getCharIndices : UErrorCode → σ → List Int × UErrorCode
  /-- The method `getCharIndices(charIndices, indexBase, success)`. -/
  getCharIndicesBase : Int → UErrorCode → σ → List Int × UErrorCode
  /-- The method `getGlyphPositions(positions, success)`, as (x, y) pairs. -/
  getGlyphPositions : UErrorCode → σ → List (F × F) × UErrorCode
  /-- The method `getGlyphPosition(glyphIndex, x, y, success)`. -/
  getGlyphPosition : Int → F → F → UErrorCode → σ → F × F × UErrorCode

/-- A state-changing call received by the engine. -/
inductive EngineCall (F : Type)
  | reset
  | layoutChars (chars : List UChar) (offset count max : Int) (rightToLeft : Bool)
      (x y : F) (success : UErrorCode)

/-- The engine `E` with a log: every `reset` and `layoutChars` it receives
is appended to the log, and otherwise it behaves as `E`. -/
def LayoutEngine.traced {σ F : Type} (E : LayoutEngine σ F) :
    LayoutEngine (σ × List (EngineCall F)) F where
  reset := fun s => (E.reset s.1, s.2 ++ [EngineCall.reset])
  layoutChars := fun chars offset count max rtl x y success s =>
    let r := E.layoutChars chars offset count max rtl x y success s.1
    (r.1, r.2.1, (r.2.2, s.2 ++ [EngineCall.layoutChars chars offset count max rtl x y success]))
  getGlyphCount := fun s => E.getGlyphCount s.1
  getGlyphs := fun success s => E.getGlyphs success s.1
  getCharIndices := fun success s => E.getCharIndices success s.1
  getCharIndicesBase := fun indexBase success s => E.getCharIndicesBase indexBase success s.1
  getGlyphPositions := fun success s => E.getGlyphPositions success s.1
  getGlyphPosition := fun i x y success s => E.getGlyphPosition i x y success s.1

/-! ## The wrapper class -/

/-- The class `ICULayoutEngine`: its one data member, `LayoutEngine
*fLayoutEngine`. -/
structure ICULayoutEngine (σ : Type) where
  fLayoutEngine : Option σ

namespace ICULayoutEngine

variable {σ F Font Locale : Type}

/-- The method `ICULayoutEngine::le_scriptCode`. `USCRIPT_CODE_LIMIT` (from
`unicode/uscript.h`) and the static table `le_scriptCodes` (defined outside
the header) are parameters; indexing the table past its end gives `none`. -/
def le_scriptCode (USCRIPT_CODE_LIMIT : Int) (le_scriptCodes : List Int) (script : Int) :
    Option Int :=
  if script < 0 ∨ script ≥ USCRIPT_CODE_LIMIT then
    some 0
  else
    le_scriptCodes[script.toNat]?

/-- The method `ICULayoutEngine::layoutChars`. -/
def layoutChars (E : LayoutEngine σ F) (self : ICULayoutEngine σ) (chars : List UChar)
    (startOffset endOffset maxOffset : Int) (rightToLeft : Bool) (x y : F)
    (success : UErrorCode) : Option (Int × UErrorCode × ICULayoutEngine σ) :=
  match self.fLayoutEngine with
  | none => none
  | some engine =>
    let engine1 := E.reset engine
    let r := E.layoutChars chars startOffset (wrap32 (endOffset - startOffset)) maxOffset
      rightToLeft x y success engine1
    some (r.1, r.2.1, ⟨some r.2.2⟩)

/-- The method `ICULayoutEngine::layoutString`. -/
def layoutString (E : LayoutEngine σ F) (self : ICULayoutEngine σ) (str : UnicodeString)
    (startOffset endOffset : Int) (rightToLeft : Bool) (x y : F)
    (success : UErrorCode) : Option (Int × UErrorCode × ICULayoutEngine σ) :=
  let max := UnicodeString.length str
  let chars := UnicodeString.extract str 0 max
  match self.fLayoutEngine with
  | none => none
  | some engine =>
    let engine1 := E.reset engine
    let r := E.layoutChars chars startOffset (wrap32 (endOffset - startOffset)) max
      rightToLeft x y success engine1
    let glyphCount := r.1
    some (glyphCount, r.2.1, ⟨some r.2.2⟩)

/-- The method `ICULayoutEngine::countGlyphs`. -/
def countGlyphs (E : LayoutEngine σ F) (self : ICULayoutEngine σ) : Option Int :=
  self.fLayoutEngine.map E.getGlyphCount

/-- The method `ICULayoutEngine::getGlyphs`. -/
def getGlyphs (E : LayoutEngine σ F) (self : ICULayoutEngine σ) (success : UErrorCode) :
    Option (List LEGlyphID × UErrorCode) :=
  self.fLayoutEngine.map (E.getGlyphs success)

/-- The method `ICULayoutEngine::getCharIndices(int32_t[], UErrorCode &)`. -/
def getCharIndices (E : LayoutEngine σ F) (self : ICULayoutEngine σ) (success : UErrorCode) :
    Option (List Int × UErrorCode) :=
  self.fLayoutEngine.map (E.getCharIndices success)

/-- The method `ICULayoutEngine::getCharIndices(int32_t[], int32_t, UErrorCode &)`. -/
def getCharIndicesBase (E : LayoutEngine σ F) (self : ICULayoutEngine σ) (indexBase : Int)
    (success : UErrorCode) : Option (List Int × UErrorCode) :=
  self.fLayoutEngine.map (E.getCharIndicesBase indexBase success)

/-- The method `ICULayoutEngine::getGlyphPositions`. -/
def getGlyphPositions (E : LayoutEngine σ F) (self : ICULayoutEngine σ)
    (success : UErrorCode) : Option (List (F × F) × UErrorCode) :=
  self.fLayoutEngine.map (E.getGlyphPositions success)

/-- The method `ICULayoutEngine::getGlyphPosition`. -/
def getGlyphPosition (E : LayoutEngine σ F) (self : ICULayoutEngine σ) (glyphIndex : Int)
    (x y : F) (success : UErrorCode) : Option (F × F × UErrorCode) :=
  self.fLayoutEngine.map (E.getGlyphPosition glyphIndex x y success)

/-- The method `ICULayoutEngine::createInstance`. `LayoutEngine::layoutEngineFactory`
is a parameter: it yields an engine pointer (possibly null) and the updated
error cell. The outer `Option` is `none` only when `le_scriptCode` reads
past the table; the inner one is the returned `ICULayoutEngine *`. -/
def createInstance (USCRIPT_CODE_LIMIT : Int) (le_scriptCodes : List Int)
    (layoutEngineFactory : Font → Int → Int → UErrorCode → Option σ × UErrorCode)
    (fontInstance : Font) (script : Int) (_locale : Locale) (success : UErrorCode) :
    Option (Option (ICULayoutEngine σ) × UErrorCode) :=
  match le_scriptCode USCRIPT_CODE_LIMIT le_scriptCodes script with
  | none => none
  | some scriptCode =>
    let r := layoutEngineFactory fontInstance scriptCode 0 success
    let engine := r.1
    some (some ⟨engine⟩, r.2)

end ICULayoutEngine

/-! ## The shaping engine of the specification

`LayoutEngine.cpp` is not among the sources, so the behaviour of the engine
behind the wrapper is modelled from the specification (sections 3, 4 and 6). -/

/-- Modelled from the spec: the Font Capability Provider interface
(`hasGlyph`, `glyphFor`, `advanceOf`, `kerningAdjustment`) of section 6,
with `queryable` telling whether the provider can be queried at all (the
`FontUnavailable` condition). The context of `glyphFor` is the character
buffer and the position in it. -/
structure FontCapabilityProvider (F : Type) where
  queryable : Bool
  hasGlyph : UChar → Bool
  glyphFor : UChar → List UChar × Nat → LEGlyphID
  advanceOf : LEGlyphID → F × F
  kerningAdjustment : LEGlyphID → LEGlyphID → F × F

/-- Modelled from the spec: the ResultBuffer of section 3, three sequences
produced by one shaping pass. -/
structure ResultBuffer (F : Type) where
  glyphs : List LEGlyphID
  charIndices : List Int
  positions : List (F × F)

/-- Modelled from the spec: an engine instance of section 3. It binds a
font and a strategy selector for its lifetime and retains the ResultBuffer
of the last layout call (`none`: Idle, `some`: HasResult, section 9).
`heapAvailable` tells whether internal buffers can be allocated (the
`OutOfMemory` condition). -/
structure ShapingEngine (F : Type) where
  font : FontCapabilityProvider F
  strategy : Int
  heapAvailable : Bool
  result : Option (ResultBuffer F)

/-- Modelled from the spec: the reserved glyph identifier standing for a
character the font has no mapping for (section 4.2, step 3). -/
def missingGlyph : LEGlyphID := 0

/-- Modelled from the spec: the precondition of `layout` (section 4.2) as
far as the engine can test it, `0 <= startOffset <= endOffset <= maxOffset`,
for the run that starts at `offset` and holds `count` characters. The last
link of the spec's chain, `maxOffset <= len(buffer)`, is no part of the
test: the engine is handed a bare `const LEUnicode chars[]`, which carries
no length, so that link stays an obligation of the caller. -/
abbrev validRun (offset count max : Int) : Prop :=
  0 ≤ offset ∧ offset ≤ offset + count ∧ offset + count ≤ max

/-- Modelled from the spec: glyph mapping (section 4.2, step 3) of the
character at position `i`; a character without a mapping yields the
missing-glyph placeholder. -/
def glyphAt {F : Type} (font : FontCapabilityProvider F) (chars : List UChar) (i : Nat) :
    LEGlyphID :=
  let c := chars.getD i 0
  if font.hasGlyph c then font.glyphFor c (chars, i) else missingGlyph

/-- Modelled from the spec: glyph mapping and reordering (section 4.2,
steps 2 and 3) of the run `[offset, offset + count)`: each glyph paired with
the index of its originating character, in logical order for a
left-to-right run and reversed into visual order for a right-to-left one.
Segmentation (step 1) has no effect of its own on the result: an instance
is bound to one strategy. -/
def shapeRun {F : Type} (font : FontCapabilityProvider F) (chars : List UChar)
    (offset count : Nat) (rightToLeft : Bool) : List (LEGlyphID × Int) :=
  let logical := (List.range count).map
    (fun k => (glyphAt font chars (offset + k), ((offset + k : Nat) : Int)))
  if rightToLeft then logical.reverse else logical

/-- Modelled from the spec: positioning (section 4.2, step 4). The glyphs
are walked in visual order from the pen position; the position of a glyph
is the pen position adjusted by the kerning against the previous glyph, the
pen then advances by the glyph's advance, and one final pair gives the
position after the last glyph. -/
def positionGlyphs {F : Type} [Add F] (font : FontCapabilityProvider F) :
    Option LEGlyphID → F × F → List LEGlyphID → List (F × F)
  | _, pen, [] => [pen]
  | prev, pen, g :: gs =>
    let here := match prev with
      | none => pen
      | some p => pen + font.kerningAdjustment p g
    here :: positionGlyphs font (some g) (here + font.advanceOf g) gs

namespace ShapingEngine

variable {F : Type}

/-- Modelled from the spec: the explicit reset step (section 4.2), which
discards the ResultBuffer of a prior call. -/
def reset (e : ShapingEngine F) : ShapingEngine F := { e with result := none }

/-- Modelled from the spec: `layout` (section 4.2) on the run
`[offset, offset + count)` of `chars`. A prior ResultBuffer is discarded
first. On failure the error kind is stored in `success`, 0 is returned and
no result is retained; on success the ResultBuffer is committed, the glyph
count is returned and `success` is left as it was. -/
def layoutChars [Add F] (chars : List UChar) (offset count max : Int) (rightToLeft : Bool)
    (x y : F) (success : UErrorCode) (e : ShapingEngine F) :
    Int × UErrorCode × ShapingEngine F :=
  let idle := reset e
  if ¬ validRun offset count max then
    (0, some ShapeError.InvalidOffset, idle)
  else if ¬ e.font.queryable then
    (0, some ShapeError.FontUnavailable, idle)
  else if ¬ e.heapAvailable then
    (0, some ShapeError.OutOfMemory, idle)
  else
    let shaped := shapeRun e.font (chars.take max.toNat) offset.toNat count.toNat rightToLeft
    let glyphs := shaped.map Prod.fst
    let buffer : ResultBuffer F :=
      { glyphs := glyphs
        charIndices := shaped.map Prod.snd
        positions := positionGlyphs e.font none (x, y) glyphs }
    ((List.length glyphs : Nat), success, { e with result := some buffer })

/-- Modelled from the spec: `glyphCount()` (section 4.3). -/
def getGlyphCount (e : ShapingEngine F) : Int :=
  match e.result with
  | none => 0
  | some buffer => (List.length buffer.glyphs : Nat)

/-- Modelled from the spec: `copyGlyphs(dest[N])` (section 4.3). -/
def getGlyphs (success : UErrorCode) (e : ShapingEngine F) : List LEGlyphID × UErrorCode :=
  match e.result with
  | none => ([], success)
  | some buffer => (buffer.glyphs, success)

/-- Modelled from the spec: `copyCharIndices(dest[N], base)` (section
4.3): every index offset by the caller-supplied base. The destination is an
`int32_t` array and `indexBase` an `int32_t`, so each sum is a 32-bit one. -/
def getCharIndicesBase (indexBase : Int) (success : UErrorCode) (e : ShapingEngine F) :
    List Int × UErrorCode :=
  match e.result with
  | none => ([], success)
  | some buffer => (buffer.charIndices.map (fun i => wrap32 (i + indexBase)), success)

/-- Modelled from the spec: `copyCharIndices(dest[N], base=0)`. -/
def getCharIndices (success : UErrorCode) (e : ShapingEngine F) : List Int × UErrorCode :=
  getCharIndicesBase 0 success e

/-- Modelled from the spec: `copyPositions(dest[N+1])` (section 4.3). -/
def getGlyphPositions (success : UErrorCode) (e : ShapingEngine F) :
    List (F × F) × UErrorCode :=
  match e.result with
  | none => ([], success)
  | some buffer => (buffer.positions, success)

/-- Modelled from the spec: `glyphPositionAt(i)` (section 4.3), which
fails with `IndexOutOfRange` unless `i` is in `[0, N]`. -/
def getGlyphPosition (glyphIndex : Int) (x y : F) (success : UErrorCode)
    (e : ShapingEngine F) : F × F × UErrorCode :=
  match e.result with
  | none => (x, y, some ShapeError.IndexOutOfRange)
  | some buffer =>
    if glyphIndex < 0 then (x, y, some ShapeError.IndexOutOfRange)
    else
      match buffer.positions[glyphIndex.toNat]? with
      | none => (x, y, some ShapeError.IndexOutOfRange)
      | some p => (p.1, p.2, success)

end ShapingEngine

/-- Modelled from the spec: the shaping engine of the specification as the
`LayoutEngine` the wrapper forwards to. -/
def shapingEngine (F : Type) [Add F] : LayoutEngine (ShapingEngine F) F where
  reset := ShapingEngine.reset
  layoutChars := ShapingEngine.layoutChars
  getGlyphCount := ShapingEngine.getGlyphCount
  getGlyphs := ShapingEngine.getGlyphs
  getCharIndices := ShapingEngine.getCharIndices
  getCharIndicesBase := ShapingEngine.getCharIndicesBase
  getGlyphPositions := ShapingEngine.getGlyphPositions
  getGlyphPosition := ShapingEngine.getGlyphPosition

/-! ## Sample data -/

/-- The font of the end-to-end scenario of section 8: each character maps
to one glyph (its own code) with advance 10 along x. -/
def sampleFont : FontCapabilityProvider Int where
  queryable := true
  hasGlyph := fun _ => true
  glyphFor := fun c _ => c
  advanceOf := fun _ => (10, 0)
  kerningAdjustment := fun _ _ => (0, 0)

/-- An idle engine instance bound to `sampleFont`. -/
def sampleEngine : ShapingEngine Int :=
  { font := sampleFont, strategy := 0, heapAvailable := true, result := none }

/-- The engine `sampleEngine` holding the result of "AB" laid out left to
right from (0, 0). -/
def sampleShaped : ShapingEngine Int :=
  { sampleEngine with result := some ⟨[65, 66], [0, 1], [(0, 0), (10, 0), (20, 0)]⟩ }

/-- The wrapper around `sampleEngine`. -/
def sampleInstance : ICULayoutEngine (ShapingEngine Int) := ⟨some sampleEngine⟩

/-- The run "AB". -/
def sampleText : List UChar := [65, 66]

/-- An engine factory that always fails: it stores `FontUnavailable` and
yields a null engine. -/
def failingFactory (_font : Unit) (_script _language : Int) (_success : UErrorCode) :
    Option (ShapingEngine Int) × UErrorCode :=
  (none, some ShapeError.FontUnavailable)

/-- A call of one of the two layout methods of the wrapper, with its
arguments. -/
inductive LayoutCall (F : Type)
  | viaChars (chars : List UChar) (startOffset endOffset maxOffset : Int) (rightToLeft : Bool)
      (x y : F) (success : UErrorCode)
  | viaString (str : UnicodeString) (startOffset endOffset : Int) (rightToLeft : Bool)
      (x y : F) (success : UErrorCode)

/-- Issue a layout call on an instance. -/
def LayoutCall.run {σ F : Type} (E : LayoutEngine σ F) (self : ICULayoutEngine σ) :
    LayoutCall F → Option (Int × UErrorCode × ICULayoutEngine σ)
  | LayoutCall.viaChars chars s e m rtl x y success =>
    ICULayoutEngine.layoutChars E self chars s e m rtl x y success
  | LayoutCall.viaString str s e rtl x y success =>
    ICULayoutEngine.layoutString E self str s e rtl x y success

/-- Two layout calls in sequence on one instance: the outcome of the
second. -/
def LayoutCall.runTwo {σ F : Type} (E : LayoutEngine σ F) (self : ICULayoutEngine σ)
    (first second : LayoutCall F) : Option (Int × UErrorCode × ICULayoutEngine σ) :=
  match first.run E self with
  | none => none
  | some r => second.run E r.2.2


end Loengine

namespace Loengine

open ICULayoutEngine

/-! ## Auxiliary lemmas -/

section Lemmas

variable {σ F : Type}

theorem wrap32_eq_self {n : Int} (h : isInt32 n) : wrap32 n = n := by
  unfold wrap32
  obtain ⟨h1, h2⟩ := h
  omega

theorem extract_whole (str : UnicodeString) :
    UnicodeString.extract str 0 (UnicodeString.length str) = str := by
  simp [UnicodeString.extract, UnicodeString.length]

theorem layoutString_as_layoutChars (E : LayoutEngine σ F) (self : ICULayoutEngine σ)
    (str : UnicodeString) (s e : Int) (rtl : Bool) (x y : F) (success : UErrorCode) :
    layoutString E self str s e rtl x y success
      = layoutChars E self str s e (UnicodeString.length str) rtl x y success := by
  unfold layoutString layoutChars
  simp only [extract_whole]

theorem positionGlyphs_length [Add F] (font : FontCapabilityProvider F) (gs : List LEGlyphID) :
    ∀ (prev : Option LEGlyphID) (pen : F × F),
      (positionGlyphs font prev pen gs).length = gs.length + 1 := by
  induction gs with
  | nil => intro prev pen; simp [positionGlyphs]
  | cons g gs ih => intro prev pen; simp [positionGlyphs, ih]

theorem reset_after_layout [Add F] (chars : List UChar) (o c m : Int) (rtl : Bool) (x y : F)
    (success : UErrorCode) (e : ShapingEngine F) :
    ShapingEngine.reset (ShapingEngine.layoutChars chars o c m rtl x y success
      (ShapingEngine.reset e)).2.2 = ShapingEngine.reset e := by
  unfold ShapingEngine.layoutChars
  split_ifs <;> rfl

theorem invalid_offsets_reach_engine (s e m : Int)
    (hs : isInt32 s) (he : isInt32 e) (hm : isInt32 m)
    (hbad : ¬ (0 ≤ s ∧ s ≤ e ∧ e ≤ m)) :
    ¬ validRun s (wrap32 (e - s)) m := by
  unfold validRun wrap32
  obtain ⟨hs1, hs2⟩ := hs
  obtain ⟨he1, he2⟩ := he
  obtain ⟨hm1, hm2⟩ := hm
  omega

theorem layoutChars_invalid [Add F] (chars : List UChar) (o c m : Int) (rtl : Bool) (x y : F)
    (success : UErrorCode) (e : ShapingEngine F) (h : ¬ validRun o c m) :
    ShapingEngine.layoutChars chars o c m rtl x y success e
      = (0, some ShapeError.InvalidOffset, ShapingEngine.reset e) := by
  unfold ShapingEngine.layoutChars
  simp only [h, not_false_eq_true, if_true]

theorem wrap32_isInt32 (n : Int) : isInt32 (wrap32 n) := by
  unfold wrap32
  constructor <;> omega

theorem layoutChars_ok_lengths [Add F] (chars : List UChar) (o c m : Int) (rtl : Bool) (x y : F)
    (success : UErrorCode) (e : ShapingEngine F)
    (hok : (ShapingEngine.layoutChars chars o c m rtl x y success e).2.1 = none)
    (cell : UErrorCode) :
    ShapingEngine.getGlyphCount (ShapingEngine.layoutChars chars o c m rtl x y success e).2.2
        = (ShapingEngine.layoutChars chars o c m rtl x y success e).1 ∧
      (((ShapingEngine.getGlyphs cell
        (ShapingEngine.layoutChars chars o c m rtl x y success e).2.2).1.length : Nat) : Int)
        = (ShapingEngine.layoutChars chars o c m rtl x y success e).1 ∧
      (((ShapingEngine.getCharIndices cell
        (ShapingEngine.layoutChars chars o c m rtl x y success e).2.2).1.length : Nat) : Int)
        = (ShapingEngine.layoutChars chars o c m rtl x y success e).1 ∧
      (((ShapingEngine.getGlyphPositions cell
        (ShapingEngine.layoutChars chars o c m rtl x y success e).2.2).1.length : Nat) : Int)
        = (ShapingEngine.layoutChars chars o c m rtl x y success e).1 + 1 := by
  unfold ShapingEngine.layoutChars at hok ⊢
  split_ifs at hok ⊢ with h1 h2 h3
  all_goals first
    | (simp at hok; done)
    | simp [ShapingEngine.getGlyphCount, ShapingEngine.getGlyphs, ShapingEngine.getCharIndices,
        ShapingEngine.getCharIndicesBase, ShapingEngine.getGlyphPositions, positionGlyphs_length]

theorem wrapper_layout_lengths [Add F] (engine : ShapingEngine F) (chars : List UChar)
    (s e m : Int) (rtl : Bool) (x y : F) (success : UErrorCode) (N : Int)
    (after : ICULayoutEngine (ShapingEngine F))
    (h : layoutChars (shapingEngine F) ⟨some engine⟩ chars s e m rtl x y success
      = some (N, none, after)) (cell : UErrorCode) :
    countGlyphs (shapingEngine F) after = some N ∧
    (getGlyphs (shapingEngine F) after cell).map (fun r => ((r.1.length : Nat) : Int)) = some N ∧
    (getCharIndices (shapingEngine F) after cell).map (fun r => ((r.1.length : Nat) : Int))
      = some N ∧
    (getGlyphPositions (shapingEngine F) after cell).map (fun r => ((r.1.length : Nat) : Int))
      = some (N + 1) := by
  simp only [layoutChars, shapingEngine, Option.some.injEq, Prod.mk.injEq] at h
  obtain ⟨hN, hok, hafter⟩ := h
  have key := layoutChars_ok_lengths chars s (wrap32 (e - s)) m rtl x y success
    (ShapingEngine.reset engine) hok cell
  subst hafter
  rw [hN] at key
  obtain ⟨k1, k2, k3, k4⟩ := key
  simp only [countGlyphs, getGlyphs, getCharIndices, getGlyphPositions, shapingEngine,
    Option.map_some']
  exact ⟨by rw [k1], by rw [k2], by rw [k3], by rw [k4]⟩

end Lemmas

/-! ## The modelled engine on the scenarios of section 8 -/

/-- Scenario 6: "AB", left to right, advance 10, origin (0, 0). -/
theorem scenario_leftToRight :
    (layoutChars (shapingEngine Int) sampleInstance sampleText 0 2 2 false 0 0 none).map
      (fun r => (r.1, (getCharIndices (shapingEngine Int) r.2.2 none).map Prod.fst,
        (getGlyphPositions (shapingEngine Int) r.2.2 none).map Prod.fst))
      = some (2, some [0, 1], some [(0, 0), (10, 0), (20, 0)]) := by
  decide

/-- Scenario 7: the same run shaped right to left comes out in reversed
visual order, the character indices still naming the logical positions. -/
theorem scenario_rightToLeft :
    (layoutChars (shapingEngine Int) sampleInstance sampleText 0 2 2 true 0 0 none).map
      (fun r => ((getGlyphs (shapingEngine Int) r.2.2 none).map Prod.fst,
        (getCharIndices (shapingEngine Int) r.2.2 none).map Prod.fst))
      = some (some [66, 65], some [1, 0]) := by
  decide

/-! ## Properties of the wrapper -/

/-- C1: `le_scriptCode` never fails, for any integer script value, given a
table `le_scriptCodes` with an entry for every script below
`USCRIPT_CODE_LIMIT`; and for a script that is negative or at least
`USCRIPT_CODE_LIMIT` it returns 0 whatever the table holds, so without
reading it. -/
theorem le_scriptCode_total (USCRIPT_CODE_LIMIT : Int) (le_scriptCodes : List Int)
    (hTable : USCRIPT_CODE_LIMIT ≤ (List.length le_scriptCodes : Nat)) (s : Int) :
    (∃ code, le_scriptCode USCRIPT_CODE_LIMIT le_scriptCodes s = some code) ∧
    ((s < 0 ∨ s ≥ USCRIPT_CODE_LIMIT) →
      ∀ anyTable : List Int, le_scriptCode USCRIPT_CODE_LIMIT anyTable s = some 0) := by
  constructor
  · unfold le_scriptCode
    by_cases h : s < 0 ∨ s ≥ USCRIPT_CODE_LIMIT
    · exact ⟨0, by simp only [h, if_true]⟩
    · have hlt : s.toNat < le_scriptCodes.length := by omega
      exact ⟨le_scriptCodes[s.toNat], by simp only [h, if_false, List.getElem?_eq_getElem hlt]⟩
  · intro h anyTable
    unfold le_scriptCode
    simp only [h, if_true]

/-- Witness of C1: limit 3, table `[0, 5, 7]`, script 1. -/
theorem le_scriptCode_total_witness :
    ((3 : Int) ≤ (List.length [(0 : Int), 5, 7] : Nat)) ∧
    ((∃ code, le_scriptCode 3 [0, 5, 7] 1 = some code) ∧
      (((1 : Int) < 0 ∨ (1 : Int) ≥ 3) →
        ∀ anyTable : List Int, le_scriptCode 3 anyTable 1 = some 0)) :=
  ⟨by decide, le_scriptCode_total 3 [0, 5, 7] (by decide) 1⟩

section Wrapper

variable {σ F Font Locale : Type}

/-- C2: on an instance with any prior engine state, `layoutChars` and
`layoutString` each send the engine exactly two state-changing calls, a
`reset` followed by the engine's `layoutChars`, and return the glyph count,
error code and state of the engine's `layoutChars` applied to the reset
state. Hence, for an engine whose `reset` discards what a layout call
stored, two layout calls in sequence give exactly what the second call
gives on its own. -/
theorem layout_resets_engine_first (E : LayoutEngine σ F) (engine : σ)
    (log : List (EngineCall F)) (chars : List UChar) (str : UnicodeString) (s e m : Int)
    (rtl : Bool) (x y : F) (success : UErrorCode) (first second : LayoutCall F) :
    (let r := E.layoutChars chars s (wrap32 (e - s)) m rtl x y success (E.reset engine)
     layoutChars E.traced ⟨some (engine, log)⟩ chars s e m rtl x y success
      = some (r.1, r.2.1, ⟨some (r.2.2, log ++ [EngineCall.reset,
          EngineCall.layoutChars chars s (wrap32 (e - s)) m rtl x y success])⟩)) ∧
    (let r := E.layoutChars str s (wrap32 (e - s)) (UnicodeString.length str) rtl x y success
        (E.reset engine)
     layoutString E.traced ⟨some (engine, log)⟩ str s e rtl x y success
      = some (r.1, r.2.1, ⟨some (r.2.2, log ++ [EngineCall.reset,
          EngineCall.layoutChars str s (wrap32 (e - s)) (UnicodeString.length str) rtl x y
            success])⟩)) ∧
    ((∀ (cs : List UChar) (o c mx : Int) (d : Bool) (px py : F) (cell : UErrorCode) (st : σ),
        E.reset (E.layoutChars cs o c mx d px py cell (E.reset st)).2.2 = E.reset st) →
      LayoutCall.runTwo E ⟨some engine⟩ first second = second.run E ⟨some engine⟩) := by
  refine ⟨?_, ?_, ?_⟩
  · simp [layoutChars, LayoutEngine.traced]
  · rw [layoutString_as_layoutChars]
    simp [layoutChars, LayoutEngine.traced]
  · intro hreset
    cases first <;> cases second <;>
      simp only [LayoutCall.runTwo, LayoutCall.run, layoutString_as_layoutChars, layoutChars,
        hreset]

/-- Witness of C2: the modelled shaping engine discards its result on
`reset`; "AB" laid out left to right and then its first character right to
left from another origin. -/
theorem layout_resets_engine_first_witness :
    (∀ (cs : List UChar) (o c mx : Int) (d : Bool) (px py : Int) (cell : UErrorCode)
        (st : ShapingEngine Int),
        (shapingEngine Int).reset
          ((shapingEngine Int).layoutChars cs o c mx d px py cell
            ((shapingEngine Int).reset st)).2.2 = (shapingEngine Int).reset st) ∧
    LayoutCall.runTwo (shapingEngine Int) ⟨some sampleEngine⟩
        (LayoutCall.viaChars sampleText 0 2 2 false 0 0 none)
        (LayoutCall.viaString sampleText 0 1 true 5 5 none)
      = (LayoutCall.viaString sampleText 0 1 true 5 5 none).run (shapingEngine Int)
          ⟨some sampleEngine⟩ :=
  ⟨fun cs o c mx d px py cell st => reset_after_layout cs o c mx d px py cell st,
   (layout_resets_engine_first (shapingEngine Int) sampleEngine [] sampleText sampleText 0 2 2
      false 0 0 none (LayoutCall.viaChars sampleText 0 2 2 false 0 0 none)
      (LayoutCall.viaString sampleText 0 1 true 5 5 none)).2.2
    (fun cs o c mx d px py cell st => reset_after_layout cs o c mx d px py cell st)⟩

/-- C3, as amended: with the engine modelled from the specification, a
`layoutChars` call whose 32-bit offsets violate
`0 <= startOffset <= endOffset <= maxOffset`, and a `layoutString` call
whose offsets violate `0 <= startOffset <= endOffset <= str.length()`,
returns 0, stores `InvalidOffset` in `success` and leaves the engine
without a result. -/
theorem invalid_offsets_rejected [Add F] (engine : ShapingEngine F) (chars : List UChar)
    (str : UnicodeString) (s e m : Int) (rtl : Bool) (x y : F) (success : UErrorCode)
    (hs : isInt32 s) (he : isInt32 e) (hm : isInt32 m)
    (hlen : isInt32 (UnicodeString.length str)) :
    (¬ (0 ≤ s ∧ s ≤ e ∧ e ≤ m) →
      layoutChars (shapingEngine F) ⟨some engine⟩ chars s e m rtl x y success
        = some (0, some ShapeError.InvalidOffset, ⟨some { engine with result := none }⟩)) ∧
    (¬ (0 ≤ s ∧ s ≤ e ∧ e ≤ UnicodeString.length str) →
      layoutString (shapingEngine F) ⟨some engine⟩ str s e rtl x y success
        = some (0, some ShapeError.InvalidOffset, ⟨some { engine with result := none }⟩)) := by
  constructor
  · intro hbad
    have h := invalid_offsets_reach_engine s e m hs he hm hbad
    simp only [layoutChars, shapingEngine]
    rw [layoutChars_invalid _ _ _ _ _ _ _ _ _ h]
    rfl
  · intro hbad
    have h := invalid_offsets_reach_engine s e (UnicodeString.length str) hs he hlen hbad
    rw [layoutString_as_layoutChars]
    simp only [layoutChars, shapingEngine]
    rw [layoutChars_invalid _ _ _ _ _ _ _ _ _ h]
    rfl

/-- Witness of C3: "AB" with `startOffset = 1 > endOffset = 0`. -/
theorem invalid_offsets_rejected_witness :
    (isInt32 1 ∧ isInt32 0 ∧ isInt32 2 ∧ isInt32 (UnicodeString.length sampleText)) ∧
    ¬ ((0 : Int) ≤ 1 ∧ (1 : Int) ≤ 0 ∧ (0 : Int) ≤ 2) ∧
    ¬ ((0 : Int) ≤ 1 ∧ (1 : Int) ≤ 0 ∧ (0 : Int) ≤ UnicodeString.length sampleText) ∧
    layoutChars (shapingEngine Int) ⟨some sampleEngine⟩ sampleText 1 0 2 false 0 0 none
      = some (0, some ShapeError.InvalidOffset, ⟨some { sampleEngine with result := none }⟩) ∧
    layoutString (shapingEngine Int) ⟨some sampleEngine⟩ sampleText 1 0 false 0 0 none
      = some (0, some ShapeError.InvalidOffset, ⟨some { sampleEngine with result := none }⟩) :=
  ⟨by decide, by decide, by decide,
   (invalid_offsets_rejected sampleEngine sampleText sampleText 1 0 2 false 0 0 none
      (by decide) (by decide) (by decide) (by decide)).1 (by decide),
   (invalid_offsets_rejected sampleEngine sampleText sampleText 1 0 2 false 0 0 none
      (by decide) (by decide) (by decide) (by decide)).2 (by decide)⟩

/-- Counterexample to C3 as stated: on the two-character buffer "AB",
`layoutChars` with offsets 0, 2 and `maxOffset = 3` violates
`maxOffset <= len(buffer)`, yet the call reports no error and delivers a
result of two glyphs. -/
theorem maxOffset_beyond_buffer_accepted :
    ¬ ((0 : Int) ≤ 0 ∧ (0 : Int) ≤ 2 ∧ (2 : Int) ≤ 3 ∧
      (3 : Int) ≤ (List.length sampleText : Nat)) ∧
    (layoutChars (shapingEngine Int) sampleInstance sampleText 0 2 3 false 0 0 none).map
      (fun r => (r.1, r.2.1, countGlyphs (shapingEngine Int) r.2.2,
        (getGlyphs (shapingEngine Int) r.2.2 none).map Prod.fst))
      = some (2, none, some 2, some [65, 66]) := by
  decide

/-- C4: with a factory that fails (it stores an error and yields a null
engine), `createInstance` still returns an `ICULayoutEngine`; the engine it
wraps is null, and a layout call on it goes through the null pointer. -/
theorem createInstance_wraps_failed_factory :
    createInstance 1 [0] failingFactory () 0 () none
      = some (some ⟨none⟩, some ShapeError.FontUnavailable) ∧
    layoutChars (shapingEngine Int) ⟨none⟩ sampleText 0 2 2 false 0 0 none = none := by
  constructor <;> rfl

/-- C5: `createInstance` ignores its locale. For any two locales it
returns the same pointer and error state, namely the engine and error state
of the one factory call with the font, script code `le_scriptCode(script)`,
language code 0 and the incoming error state. -/
theorem createInstance_ignores_locale (USCRIPT_CODE_LIMIT : Int) (le_scriptCodes : List Int)
    (layoutEngineFactory : Font → Int → Int → UErrorCode → Option σ × UErrorCode)
    (fontInstance : Font) (script : Int) (locale1 locale2 : Locale) (success : UErrorCode) :
    createInstance USCRIPT_CODE_LIMIT le_scriptCodes layoutEngineFactory fontInstance script
        locale1 success
      = createInstance USCRIPT_CODE_LIMIT le_scriptCodes layoutEngineFactory fontInstance script
        locale2 success ∧
    createInstance USCRIPT_CODE_LIMIT le_scriptCodes layoutEngineFactory fontInstance script
        locale1 success
      = (le_scriptCode USCRIPT_CODE_LIMIT le_scriptCodes script).map (fun scriptCode =>
          (some ⟨(layoutEngineFactory fontInstance scriptCode 0 success).1⟩,
            (layoutEngineFactory fontInstance scriptCode 0 success).2)) := by
  constructor
  · rfl
  · unfold createInstance
    cases le_scriptCode USCRIPT_CODE_LIMIT le_scriptCodes script <;> rfl

/-- C6: with the engine modelled from the specification, after a
`layoutChars` or `layoutString` call that returns `N` and leaves no error in
`success`: `countGlyphs` returns `N`, `getGlyphs` and `getCharIndices` each
deliver `N` entries, and `getGlyphPositions` delivers `N + 1` pairs. -/
theorem layout_result_lengths [Add F] (engine : ShapingEngine F) (chars : List UChar)
    (str : UnicodeString) (s e m : Int) (rtl : Bool) (x y : F) (success cell : UErrorCode)
    (N : Int) (after : ICULayoutEngine (ShapingEngine F))
    (h : layoutChars (shapingEngine F) ⟨some engine⟩ chars s e m rtl x y success
          = some (N, none, after) ∨
        layoutString (shapingEngine F) ⟨some engine⟩ str s e rtl x y success
          = some (N, none, after)) :
    countGlyphs (shapingEngine F) after = some N ∧
    (getGlyphs (shapingEngine F) after cell).map (fun r => ((r.1.length : Nat) : Int)) = some N ∧
    (getCharIndices (shapingEngine F) after cell).map (fun r => ((r.1.length : Nat) : Int))
      = some N ∧
    (getGlyphPositions (shapingEngine F) after cell).map (fun r => ((r.1.length : Nat) : Int))
      = some (N + 1) := by
  rcases h with h | h
  · exact wrapper_layout_lengths engine chars s e m rtl x y success N after h cell
  · rw [layoutString_as_layoutChars] at h
    exact wrapper_layout_lengths engine str s e (UnicodeString.length str) rtl x y success N
      after h cell

/-- Witness of C6: "AB" laid out left to right from (0, 0) gives two
glyphs. -/
theorem layout_result_lengths_witness :
    layoutChars (shapingEngine Int) ⟨some sampleEngine⟩ sampleText 0 2 2 false 0 0 none
      = some (2, none, ⟨some { sampleEngine with
          result := some ⟨[65, 66], [0, 1], [(0, 0), (10, 0), (20, 0)]⟩ }⟩) ∧
    (countGlyphs (shapingEngine Int) ⟨some { sampleEngine with
          result := some ⟨[65, 66], [0, 1], [(0, 0), (10, 0), (20, 0)]⟩ }⟩ = some 2 ∧
      (getGlyphs (shapingEngine Int) ⟨some { sampleEngine with
          result := some ⟨[65, 66], [0, 1], [(0, 0), (10, 0), (20, 0)]⟩ }⟩ none).map
        (fun r => ((r.1.length : Nat) : Int)) = some 2 ∧
      (getCharIndices (shapingEngine Int) ⟨some { sampleEngine with
          result := some ⟨[65, 66], [0, 1], [(0, 0), (10, 0), (20, 0)]⟩ }⟩ none).map
        (fun r => ((r.1.length : Nat) : Int)) = some 2 ∧
      (getGlyphPositions (shapingEngine Int) ⟨some { sampleEngine with
          result := some ⟨[65, 66], [0, 1], [(0, 0), (10, 0), (20, 0)]⟩ }⟩ none).map
        (fun r => ((r.1.length : Nat) : Int)) = some (2 + 1)) :=
  ⟨rfl, layout_result_lengths sampleEngine sampleText sampleText 0 2 2 false 0 0 none none 2
    ⟨some { sampleEngine with result := some ⟨[65, 66], [0, 1], [(0, 0), (10, 0), (20, 0)]⟩ }⟩
    (Or.inl rfl)⟩

/-- C7, as amended: the wrapper hands `indexBase` to the engine
unchanged, and with the engine modelled from the specification the array
delivered for `indexBase = K` has the length of the one delivered for
`indexBase = 0`, holds 32-bit values, and at every position where the
element for base 0 plus `K` lies in the `int32_t` range it holds exactly
that sum. -/
theorem getCharIndices_indexBase [Add F] (E : LayoutEngine σ F) (self : ICULayoutEngine σ)
    (engine : ShapingEngine F) (K : Int) (success : UErrorCode) (i : Nat) (v : Int) :
    getCharIndicesBase E self K success
      = self.fLayoutEngine.map (E.getCharIndicesBase K success) ∧
    (getCharIndicesBase (shapingEngine F) ⟨some engine⟩ K success).map
        (fun r => (r.1.length, r.2))
      = (getCharIndicesBase (shapingEngine F) ⟨some engine⟩ 0 success).map
        (fun r => (r.1.length, r.2)) ∧
    (∀ w : Int, (getCharIndicesBase (shapingEngine F) ⟨some engine⟩ K success).map
        (fun r => r.1[i]?) = some (some w) → isInt32 w) ∧
    ((getCharIndicesBase (shapingEngine F) ⟨some engine⟩ 0 success).map (fun r => r.1[i]?)
        = some (some v) →
      isInt32 (v + K) →
      (getCharIndicesBase (shapingEngine F) ⟨some engine⟩ K success).map (fun r => r.1[i]?)
        = some (some (v + K))) := by
  refine ⟨rfl, ?_, ?_, ?_⟩
  · cases hres : engine.result <;>
      simp [getCharIndicesBase, shapingEngine, ShapingEngine.getCharIndicesBase, hres]
  · intro w hw
    cases hres : engine.result with
    | none =>
      simp [getCharIndicesBase, shapingEngine, ShapingEngine.getCharIndicesBase, hres] at hw
    | some buffer =>
      simp only [getCharIndicesBase, shapingEngine, ShapingEngine.getCharIndicesBase, hres,
        Option.map_some', List.getElem?_map, Option.some.injEq] at hw
      cases hc : buffer.charIndices[i]? with
      | none => simp [hc] at hw
      | some c =>
        simp only [hc, Option.map_some', Option.some.injEq] at hw
        rw [← hw]
        exact wrap32_isInt32 _
  · intro hv hfit
    cases hres : engine.result with
    | none =>
      simp [getCharIndicesBase, shapingEngine, ShapingEngine.getCharIndicesBase, hres] at hv
    | some buffer =>
      simp only [getCharIndicesBase, shapingEngine, ShapingEngine.getCharIndicesBase, hres,
        Option.map_some', List.getElem?_map, Option.some.injEq] at hv ⊢
      cases hc : buffer.charIndices[i]? with
      | none => simp [hc] at hv
      | some c =>
        simp only [hc, Option.map_some', Option.some.injEq, add_zero] at hv ⊢
        have hcv : wrap32 (c + K) = v + K := by
          unfold wrap32 at hv ⊢
          obtain ⟨h1, h2⟩ := hfit
          omega
        exact hcv

/-- Witness of C7: "AB" laid out, position 1, `indexBase = 5`. -/
theorem getCharIndices_indexBase_witness :
    (getCharIndicesBase (shapingEngine Int) ⟨some sampleShaped⟩ 0 none).map (fun r => r.1[1]?)
        = some (some 1) ∧
    isInt32 (1 + 5) ∧
    (getCharIndicesBase (shapingEngine Int) ⟨some sampleShaped⟩ 5 none).map (fun r => r.1[1]?)
        = some (some (1 + 5)) :=
  ⟨by decide, by decide,
   (getCharIndices_indexBase (shapingEngine Int) ⟨some sampleShaped⟩ sampleShaped 5 none 1
      1).2.2.2 (by decide) (by decide)⟩

/-- Counterexample to C7 as stated: with "AB" laid out and
`indexBase = 2147483647`, the element at position 1 is 1 for base 0, and
the element delivered for that base is a 32-bit value, not
`1 + 2147483647`. -/
theorem indexBase_sum_beyond_int32 :
    (getCharIndicesBase (shapingEngine Int) ⟨some sampleShaped⟩ 0 none).map (fun r => r.1[1]?)
        = some (some 1) ∧
    (getCharIndicesBase (shapingEngine Int) ⟨some sampleShaped⟩ 2147483647 none).map
        (fun r => r.1[1]?) ≠ some (some (1 + 2147483647)) := by
  decide

/-- C8: for `0 <= startOffset <= endOffset <= maxOffset` with `maxOffset`
a 32-bit signed value, `layoutChars` sends the engine, after `reset`, the
call with `offset = startOffset`, `count = endOffset - startOffset` (the
32-bit subtraction does not wrap), and `maxOffset`, `rightToLeft`, `x`, `y`
and `success` unchanged, where `0 <= count` and
`offset + count = endOffset <= maxOffset`; it returns the engine's glyph
count and error code unchanged. -/
theorem layoutChars_forwards_offsets (E : LayoutEngine σ F) (engine : σ)
    (log : List (EngineCall F)) (chars : List UChar) (s e m : Int) (rtl : Bool) (x y : F)
    (success : UErrorCode) (h0 : 0 ≤ s) (h1 : s ≤ e) (h2 : e ≤ m) (hm : isInt32 m) :
    (let r := E.layoutChars chars s (e - s) m rtl x y success (E.reset engine)
     layoutChars E.traced ⟨some (engine, log)⟩ chars s e m rtl x y success
      = some (r.1, r.2.1, ⟨some (r.2.2, log ++ [EngineCall.reset,
          EngineCall.layoutChars chars s (e - s) m rtl x y success])⟩)) ∧
    wrap32 (e - s) = e - s ∧ 0 ≤ e - s ∧ isInt32 (e - s) ∧ s + (e - s) = e ∧
      s + (e - s) ≤ m := by
  have hrange : isInt32 (e - s) := by
    obtain ⟨hm1, hm2⟩ := hm
    constructor <;> omega
  have hw : wrap32 (e - s) = e - s := wrap32_eq_self hrange
  refine ⟨?_, hw, by omega, hrange, by omega, by omega⟩
  simp [layoutChars, LayoutEngine.traced, hw]

/-- Witness of C8: offsets 1, 2 and 2 on "AB" with the modelled engine. -/
theorem layoutChars_forwards_offsets_witness :
    ((0 : Int) ≤ 1 ∧ (1 : Int) ≤ 2 ∧ (2 : Int) ≤ 2 ∧ isInt32 2) ∧
    ((let r := (shapingEngine Int).layoutChars sampleText 1 (2 - 1) 2 false 0 0 none
        ((shapingEngine Int).reset sampleEngine)
      layoutChars (shapingEngine Int).traced ⟨some (sampleEngine, [])⟩ sampleText 1 2 2 false
          0 0 none
        = some (r.1, r.2.1, ⟨some (r.2.2, [] ++ [EngineCall.reset,
            EngineCall.layoutChars sampleText 1 (2 - 1) 2 false 0 0 none])⟩)) ∧
      wrap32 (2 - 1) = 2 - 1 ∧ (0 : Int) ≤ 2 - 1 ∧ isInt32 (2 - 1) ∧ (1 : Int) + (2 - 1) = 2 ∧
        (1 : Int) + (2 - 1) ≤ 2) :=
  ⟨by decide, layoutChars_forwards_offsets (shapingEngine Int) sampleEngine [] sampleText 1 2 2
    false 0 0 none (by decide) (by decide) (by decide) (by decide)⟩

/-- C9: `layoutString(str, startOffset, endOffset, rightToLeft, x, y)`
returns the glyph count, error code and engine state of
`layoutChars(chars of str, startOffset, endOffset, str.length(),
rightToLeft, x, y)`, for every engine and every state of the instance. -/
theorem layoutString_eq_layoutChars (E : LayoutEngine σ F) (self : ICULayoutEngine σ)
    (str : UnicodeString) (s e : Int) (rtl : Bool) (x y : F) (success : UErrorCode) :
    layoutString E self str s e rtl x y success
      = layoutChars E self str s e (UnicodeString.length str) rtl x y success := by
  unfold layoutString layoutChars
  simp only [extract_whole]

end Wrapper

end Loengine
